import Mathlib

/-!
Verification development for the MirrorCoordinate utility (`main.py`):
a DMS (degrees-minutes-seconds-milliseconds) coordinate codec, a mirror
transform about a reference point, and an offset-anchoring step.

Machine floating point is modelled by exact arithmetic: rationals for the
codec (whose operations are integer arithmetic and exact small divisions)
and reals for the trigonometric transform.  Raising `ValueError`
(the spec's `FormatError`) is modelled by `none`.
-/

namespace MirrorCoordinate

/-! ## DMS codec: the grammar matcher

The source parses with
`re.match(r"COORD:([NS])(\d+)\.(\d+)\.(\d+)\.(\d+):([EW])(\d+)\.(\d+)\.(\d+)\.(\d+)", s)`.
`re.match` anchors at the start of the string only; greedy `\d+` followed by a
non-digit literal is equivalent to maximal-munch digit runs, which is how the
matcher below reads its input.
-/

/-- Value of a big-endian run of digit characters, the number `int(...)`
returns on the captured group. -/
def parseNatDigits (ds : List Char) : ℕ :=
  ds.foldl (fun a c => 10 * a + (c.toNat - 48)) 0

/-- Strip an expected literal prefix of the input, failing (like the regex)
on any mismatch. -/
def stripLit : List Char → List Char → Option (List Char)
  | [], s => some s
  | _ :: _, [] => none
  | l :: ls, c :: cs => if c = l then stripLit ls cs else none

/-- Match one direction letter (`[NS]` or `[EW]`); `true` means the
negative-direction letter was seen. -/
def matchDir (pos neg : Char) : List Char → Option (Bool × List Char)
  | [] => none
  | c :: cs =>
    if c = pos then some (false, cs)
    else if c = neg then some (true, cs) else none

/-- Match a maximal nonempty digit run, returning its value and the rest of
the input. -/
def matchNum (s : List Char) : Option (ℕ × List Char) :=
  if s.takeWhile Char.isDigit = [] then none
  else some (parseNatDigits (s.takeWhile Char.isDigit), s.dropWhile Char.isDigit)

/-- The ten captured groups of the coordinate pattern. -/
structure DMS where
  latNeg : Bool
  latDeg : ℕ
  latMin : ℕ
  latSec : ℕ
  latMs : ℕ
  lonNeg : Bool
  lonDeg : ℕ
  lonMin : ℕ
  lonSec : ℕ
  lonMs : ℕ
  deriving DecidableEq

/-- Match one axis: a direction letter followed by four dot-separated digit
runs. -/
def matchAxis (pos neg : Char) (s : List Char) :
    Option ((Bool × ℕ × ℕ × ℕ × ℕ) × List Char) := do
  let (nb, s1) ← matchDir pos neg s
  let (d, s2) ← matchNum s1
  let s3 ← stripLit ['.'] s2
  let (m, s4) ← matchNum s3
  let s5 ← stripLit ['.'] s4
  let (sec, s6) ← matchNum s5
  let s7 ← stripLit ['.'] s6
  let (ms, s8) ← matchNum s7
  return ((nb, d, m, sec, ms), s8)

/-- The whole coordinate pattern, anchored at the start of the input only:
whatever follows the second axis is ignored, matching `re.match`. -/
def dmsMatch (s : List Char) : Option DMS := do
  let s1 ← stripLit ['C', 'O', 'O', 'R', 'D', ':'] s
  let (la, s2) ← matchAxis 'N' 'S' s1
  let s3 ← stripLit [':'] s2
  let (lo, _) ← matchAxis 'E' 'W' s3
  return ⟨la.1, la.2.1, la.2.2.1, la.2.2.2.1, la.2.2.2.2,
          lo.1, lo.2.1, lo.2.2.1, lo.2.2.2.1, lo.2.2.2.2⟩

/-- Signed decimal value of one parsed axis:
deg + min/60 + sec/3600 + msec/3600000, negated for the 'S'/'W' letter. -/
def axisValue (neg : Bool) (d m s ms : ℕ) : ℚ :=
  let v : ℚ := (d : ℚ) + (m : ℚ) / 60 + (s : ℚ) / 3600 + (ms : ℚ) / 3600000
  if neg then -v else v

/-- Model of `dms_to_decimal`: `none` models raising the format error. -/
def dms_to_decimal (s : List Char) : Option (ℚ × ℚ) :=
  (dmsMatch s).map fun f =>
    (axisValue f.latNeg f.latDeg f.latMin f.latSec f.latMs,
     axisValue f.lonNeg f.lonDeg f.lonMin f.lonSec f.lonMs)

/-! ## DMS codec: the formatter -/

/-- Python `int(...)` applied to a rational: truncation toward zero. -/
def pytrunc (q : ℚ) : ℤ := if 0 ≤ q then ⌊q⌋ else ⌈q⌉

/-- Character of one decimal digit. -/
def digitChar (d : ℕ) : Char := Char.ofNat (48 + d)

/-- Big-endian digit characters of a natural number (empty for 0, which in
this program only ever appears zero-padded). -/
def digitChars (n : ℕ) : List Char := ((Nat.digits 10 n).reverse).map digitChar

/-- Zero-padded decimal rendering of a natural number to width `w`, as the
format specifier `0wd` renders it (wider numbers are not cut). -/
def pad (w : ℕ) (n : ℕ) : List Char :=
  List.replicate (w - (digitChars n).length) '0' ++ digitChars n

/-- Degrees field of the truncating decomposition: `int(value)`. -/
def degOf (v : ℚ) : ℤ := pytrunc v

/-- Minutes field: `int((value - degrees) * 60)`. -/
def minOf (v : ℚ) : ℤ := pytrunc ((v - (degOf v : ℚ)) * 60)

/-- Seconds field: `int((value - degrees - minutes / 60) * 3600)`. -/
def secOf (v : ℚ) : ℤ :=
  pytrunc ((v - (degOf v : ℚ) - (minOf v : ℚ) / 60) * 3600)

/-- Milliseconds field:
`int((value - degrees - minutes / 60 - seconds / 3600) * 3600000)`. -/
def msOf (v : ℚ) : ℤ :=
  pytrunc ((v - (degOf v : ℚ) - (minOf v : ℚ) / 60 - (secOf v : ℚ) / 3600) * 3600000)

/-- One axis of `decimal_to_dms` (the inner `to_dms` of the source):
truncating decomposition into degrees, minutes, seconds, milliseconds,
rendered zero-padded to widths 3, 2, 2, 3. -/
def to_dms (value : ℚ) (dpos dneg : Char) : List Char :=
  let dir := if 0 ≤ value then dpos else dneg
  let v := |value|
  dir :: (pad 3 (degOf v).toNat ++ '.' ::
    (pad 2 (minOf v).toNat ++ '.' :: (pad 2 (secOf v).toNat ++ '.' :: pad 3 (msOf v).toNat)))

/-- Model of `decimal_to_dms`. -/
def decimal_to_dms (lat lon : ℚ) : List Char :=
  ['C', 'O', 'O', 'R', 'D', ':'] ++ to_dms lat 'N' 'S' ++ ':' :: to_dms lon 'E' 'W'

/-! ## Mirror transform, pipeline driver, offset anchor

The transform works on real numbers (the idealisation of the floats of the
source); angles are in degrees and are converted with `math.radians`.
-/

/-- Body of the loop of `mirror_coordinates` on one decimal coordinate:
translate to the reference, rotate by the angle, negate the second rotated
component, rotate by the negated angle, translate back. -/
noncomputable def mirror_point (lat lon ref_lat ref_lon angle : ℝ) : ℝ × ℝ :=
  let angle_rad := angle * (Real.pi / 180)
  let dlat := lat - ref_lat
  let dlon := lon - ref_lon
  let lat_rot := dlat * Real.cos angle_rad + dlon * Real.sin angle_rad
  let lon_rot := -dlat * Real.sin angle_rad + dlon * Real.cos angle_rad
  let lon_mirrored := -lon_rot
  (lat_rot * Real.cos (-angle_rad) + lon_mirrored * Real.sin (-angle_rad) + ref_lat,
   -lat_rot * Real.sin (-angle_rad) + lon_mirrored * Real.cos (-angle_rad) + ref_lon)

/-- Model of `mirror_coordinates`: parse each string inside the loop and
transform it.  A parse failure raises, which aborts the whole call, so any
malformed entry makes the result `none`. -/
noncomputable def mirror_coordinates (coords : List (List Char))
    (ref_lat ref_lon : ℝ) (angle : ℝ) : Option (List (ℝ × ℝ)) :=
  match coords with
  | [] => some []
  | c :: cs =>
    match dms_to_decimal c with
    | none => none
    | some (la, lo) =>
      match mirror_coordinates cs ref_lat ref_lon angle with
      | none => none
      | some rest => some (mirror_point (la : ℝ) (lo : ℝ) ref_lat ref_lon angle :: rest)

/-- Model of `math.hypot`. -/
noncomputable def hypot (x y : ℝ) : ℝ := Real.sqrt (x ^ 2 + y ^ 2)

/-- Model of `min(xs, key=f)` on a nonempty list `h :: t`: Python's `min`
scans left to right and keeps the earlier element on ties. -/
noncomputable def minByKey (f : ℝ × ℝ → ℝ) (h : ℝ × ℝ) (t : List (ℝ × ℝ)) : ℝ × ℝ :=
  t.foldl (fun best p => if f p < f best then p else best) h

/-- Model of `apply_offset`: parse the reference and target (failure is
fatal), find the mirrored point nearest the reference, and translate the
whole batch so that point lands on the target.  `min` of an empty sequence
raises, hence `none` on an empty batch. -/
noncomputable def apply_offset (mirrored_coords : List (ℝ × ℝ))
    (ref_coord final_offset_coord : List Char) : Option (List (ℝ × ℝ)) :=
  match dms_to_decimal ref_coord, dms_to_decimal final_offset_coord with
  | some (ref_lat, ref_lon), some (final_lat, final_lon) =>
    match mirrored_coords with
    | [] => none
    | h :: t =>
      let nearest := minByKey
        (fun p => hypot (p.1 - (ref_lat : ℝ)) (p.2 - (ref_lon : ℝ))) h t
      let lat_offset := (final_lat : ℝ) - nearest.1
      let lon_offset := (final_lon : ℝ) - nearest.2
      some (mirrored_coords.map fun p => (p.1 + lat_offset, p.2 + lon_offset))
  | _, _ => none

/-- Rotate-back step as the specification document words it, with the
positive angle: stated for comparison with what the code computes. -/
noncomputable def rotate_back_spec (rot_a rot_bp ref_lat ref_lon θ : ℝ) : ℝ × ℝ :=
  (rot_a * Real.cos θ + rot_bp * Real.sin θ + ref_lat,
   -rot_a * Real.sin θ + rot_bp * Real.cos θ + ref_lon)

/-- First rotated component of the transform (`lat_rot` of the source). -/
noncomputable def rotA (lat lon ref_lat ref_lon angle : ℝ) : ℝ :=
  (lat - ref_lat) * Real.cos (angle * (Real.pi / 180)) +
    (lon - ref_lon) * Real.sin (angle * (Real.pi / 180))

/-- Reflected second rotated component (`lon_mirrored` before the rotate
back, i.e. the negation of `lon_rot`). -/
noncomputable def rotBp (lat lon ref_lat ref_lon angle : ℝ) : ℝ :=
  -(-(lat - ref_lat) * Real.sin (angle * (Real.pi / 180)) +
    (lon - ref_lon) * Real.cos (angle * (Real.pi / 180)))

/-! ## Building well-formed coordinate strings

The lemmas below characterise the matcher on any string assembled from a
direction letter and digit runs, which is how both the round-trip and the
acceptance claims are settled.
-/

/-- A nonempty run of digit characters. -/
def digitRun (ds : List Char) : Bool := !ds.isEmpty && ds.all Char.isDigit

/-- Condition that a remainder of input does not begin with a digit. -/
def notDigStart : List Char → Bool
  | [] => true
  | c :: _ => !c.isDigit

/-- One axis of a coordinate string: direction letter, four digit runs,
then a remainder. -/
def mkAxis (dir : Char) (d1 d2 d3 d4 r : List Char) : List Char :=
  dir :: (d1 ++ '.' :: (d2 ++ '.' :: (d3 ++ '.' :: (d4 ++ r))))

/-- A full coordinate string made of a lat axis, a lon axis and a
remainder. -/
def mkCoordStr (latDir : Char) (L1 L2 L3 L4 : List Char)
    (lonDir : Char) (M1 M2 M3 M4 : List Char) (r : List Char) : List Char :=
  ['C', 'O', 'O', 'R', 'D', ':'] ++
    mkAxis latDir L1 L2 L3 L4 (':' :: mkAxis lonDir M1 M2 M3 M4 r)

theorem digitRun_spec {ds : List Char} (h : digitRun ds = true) :
    ds ≠ [] ∧ ∀ c ∈ ds, c.isDigit = true := by
  simp only [digitRun, Bool.and_eq_true, List.all_eq_true, Bool.not_eq_true'] at h
  exact ⟨by simpa using h.1, h.2⟩

theorem stripLit_append (l s : List Char) : stripLit l (l ++ s) = some s := by
  induction l with
  | nil => rfl
  | cons c cs ih => simp [stripLit, ih]

theorem takeWhile_digits_append {ds : List Char} (r : List Char)
    (hds : ∀ c ∈ ds, c.isDigit = true) (hr : notDigStart r = true) :
    (ds ++ r).takeWhile Char.isDigit = ds ∧ (ds ++ r).dropWhile Char.isDigit = r := by
  induction ds with
  | nil =>
    cases r with
    | nil => exact ⟨rfl, rfl⟩
    | cons c cs =>
      simp only [notDigStart, Bool.not_eq_true'] at hr
      simp [List.takeWhile, List.dropWhile, hr]
  | cons c cs ih =>
    have hc : c.isDigit = true := hds c (by simp)
    have ih' := ih (fun x hx => hds x (by simp [hx]))
    simp [List.takeWhile, List.dropWhile, hc, ih'.1, ih'.2]

theorem matchNum_digits_append {ds : List Char} (r : List Char)
    (hne : ds ≠ []) (hds : ∀ c ∈ ds, c.isDigit = true) (hr : notDigStart r = true) :
    matchNum (ds ++ r) = some (parseNatDigits ds, r) := by
  have h := takeWhile_digits_append r hds hr
  simp [matchNum, h.1, h.2, hne]

theorem matchNum_digit_start {c : Char} (s : List Char) (hc : c.isDigit = true) :
    ∃ n rest, matchNum (c :: s) = some (n, rest) := by
  have ht : (c :: s).takeWhile Char.isDigit = c :: s.takeWhile Char.isDigit := by
    simp [List.takeWhile, hc]
  exact ⟨parseNatDigits ((c :: s).takeWhile Char.isDigit),
    (c :: s).dropWhile Char.isDigit, by simp [matchNum, ht]⟩

theorem matchAxis_eq (pos neg : Char) {s s1 : List Char} {bNeg : Bool}
    (hdir : matchDir pos neg s = some (bNeg, s1))
    (d1 d2 d3 d4 r : List Char)
    (hs1 : s1 = d1 ++ '.' :: (d2 ++ '.' :: (d3 ++ '.' :: (d4 ++ r))))
    (h1 : digitRun d1 = true) (h2 : digitRun d2 = true)
    (h3 : digitRun d3 = true) (h4 : digitRun d4 = true)
    (hr : notDigStart r = true) :
    matchAxis pos neg s = some ((bNeg, parseNatDigits d1, parseNatDigits d2,
      parseNatDigits d3, parseNatDigits d4), r) := by
  obtain ⟨h1e, h1d⟩ := digitRun_spec h1
  obtain ⟨h2e, h2d⟩ := digitRun_spec h2
  obtain ⟨h3e, h3d⟩ := digitRun_spec h3
  obtain ⟨h4e, h4d⟩ := digitRun_spec h4
  have hdot : ∀ l : List Char, notDigStart ('.' :: l) = true := fun _ => rfl
  have m1 : matchNum (d1 ++ '.' :: (d2 ++ '.' :: (d3 ++ '.' :: (d4 ++ r)))) =
      some (parseNatDigits d1, '.' :: (d2 ++ '.' :: (d3 ++ '.' :: (d4 ++ r)))) :=
    matchNum_digits_append _ h1e h1d (hdot _)
  have l1 := stripLit_append ['.'] (d2 ++ '.' :: (d3 ++ '.' :: (d4 ++ r)))
  rw [List.singleton_append] at l1
  have m2 : matchNum (d2 ++ '.' :: (d3 ++ '.' :: (d4 ++ r))) =
      some (parseNatDigits d2, '.' :: (d3 ++ '.' :: (d4 ++ r))) :=
    matchNum_digits_append _ h2e h2d (hdot _)
  have l2 := stripLit_append ['.'] (d3 ++ '.' :: (d4 ++ r))
  rw [List.singleton_append] at l2
  have m3 : matchNum (d3 ++ '.' :: (d4 ++ r)) =
      some (parseNatDigits d3, '.' :: (d4 ++ r)) :=
    matchNum_digits_append _ h3e h3d (hdot _)
  have l3 := stripLit_append ['.'] (d4 ++ r)
  rw [List.singleton_append] at l3
  have m4 : matchNum (d4 ++ r) = some (parseNatDigits d4, r) :=
    matchNum_digits_append _ h4e h4d hr
  simp [matchAxis, hdir, hs1, m1, l1, m2, l2, m3, l3, m4]

theorem matchDir_pos (pos neg : Char) (s : List Char) :
    matchDir pos neg (pos :: s) = some (false, s) := by
  simp [matchDir]

theorem matchDir_neg {pos neg : Char} (s : List Char) (h : neg ≠ pos) :
    matchDir pos neg (neg :: s) = some (true, s) := by
  simp [matchDir, h]

/-- The matcher accepts any string assembled from the two direction letters
(chosen by `bLat`/`bLon`), eight nonempty digit runs, and a remainder that
does not begin with a digit, and captures exactly those runs. -/
theorem dmsMatch_build (bLat bLon : Bool) (L1 L2 L3 L4 M1 M2 M3 M4 r : List Char)
    (hL1 : digitRun L1 = true) (hL2 : digitRun L2 = true)
    (hL3 : digitRun L3 = true) (hL4 : digitRun L4 = true)
    (hM1 : digitRun M1 = true) (hM2 : digitRun M2 = true)
    (hM3 : digitRun M3 = true) (hM4 : digitRun M4 = true)
    (hr : notDigStart r = true) :
    dmsMatch (mkCoordStr (cond bLat 'S' 'N') L1 L2 L3 L4
        (cond bLon 'W' 'E') M1 M2 M3 M4 r) =
      some ⟨bLat, parseNatDigits L1, parseNatDigits L2, parseNatDigits L3,
        parseNatDigits L4, bLon, parseNatDigits M1, parseNatDigits M2,
        parseNatDigits M3, parseNatDigits M4⟩ := by
  have hlit : stripLit ['C', 'O', 'O', 'R', 'D', ':']
      ('C' :: 'O' :: 'O' :: 'R' :: 'D' :: ':' ::
        mkAxis (cond bLat 'S' 'N') L1 L2 L3 L4
          (':' :: mkAxis (cond bLon 'W' 'E') M1 M2 M3 M4 r)) =
      some (mkAxis (cond bLat 'S' 'N') L1 L2 L3 L4
        (':' :: mkAxis (cond bLon 'W' 'E') M1 M2 M3 M4 r)) :=
    stripLit_append _ _
  have hlat : matchDir 'N' 'S'
      (mkAxis (cond bLat 'S' 'N') L1 L2 L3 L4
        (':' :: mkAxis (cond bLon 'W' 'E') M1 M2 M3 M4 r)) =
      some (bLat, L1 ++ '.' :: (L2 ++ '.' :: (L3 ++ '.' :: (L4 ++
        ':' :: mkAxis (cond bLon 'W' 'E') M1 M2 M3 M4 r)))) := by
    cases bLat
    · exact matchDir_pos 'N' 'S' _
    · exact matchDir_neg _ (by decide)
  have hlon : matchDir 'E' 'W' (mkAxis (cond bLon 'W' 'E') M1 M2 M3 M4 r) =
      some (bLon, M1 ++ '.' :: (M2 ++ '.' :: (M3 ++ '.' :: (M4 ++ r)))) := by
    cases bLon
    · exact matchDir_pos 'E' 'W' _
    · exact matchDir_neg _ (by decide)
  have haxlat := matchAxis_eq 'N' 'S' hlat _ _ _ _ _ rfl hL1 hL2 hL3 hL4 rfl
  have haxlon := matchAxis_eq 'E' 'W' hlon _ _ _ _ _ rfl hM1 hM2 hM3 hM4 hr
  have hcol := stripLit_append [':'] (mkAxis (cond bLon 'W' 'E') M1 M2 M3 M4 r)
  rw [List.singleton_append] at hcol
  simp [dmsMatch, mkCoordStr, hlit, haxlat, hcol, haxlon]

/-- Acceptance only, for an arbitrary remainder (possibly extending the last
digit run): matching never fails on a string with a well-formed prefix. -/
theorem dmsMatch_build_isSome (bLat bLon : Bool) (L1 L2 L3 L4 M1 M2 M3 M4 r : List Char)
    (hL1 : digitRun L1 = true) (hL2 : digitRun L2 = true)
    (hL3 : digitRun L3 = true) (hL4 : digitRun L4 = true)
    (hM1 : digitRun M1 = true) (hM2 : digitRun M2 = true)
    (hM3 : digitRun M3 = true) (hM4 : digitRun M4 = true) :
    (dmsMatch (mkCoordStr (cond bLat 'S' 'N') L1 L2 L3 L4
        (cond bLon 'W' 'E') M1 M2 M3 M4 r)).isSome = true := by
  obtain ⟨h4e, h4d⟩ := digitRun_spec hM4
  obtain ⟨c, cs, rfl⟩ : ∃ c cs, M4 = c :: cs := by
    cases M4 with
    | nil => exact absurd rfl h4e
    | cons c cs => exact ⟨c, cs, rfl⟩
  have hlit : stripLit ['C', 'O', 'O', 'R', 'D', ':']
      ('C' :: 'O' :: 'O' :: 'R' :: 'D' :: ':' ::
        mkAxis (cond bLat 'S' 'N') L1 L2 L3 L4
          (':' :: mkAxis (cond bLon 'W' 'E') M1 M2 M3 (c :: cs) r)) =
      some (mkAxis (cond bLat 'S' 'N') L1 L2 L3 L4
        (':' :: mkAxis (cond bLon 'W' 'E') M1 M2 M3 (c :: cs) r)) :=
    stripLit_append _ _
  have hlat : matchDir 'N' 'S'
      (mkAxis (cond bLat 'S' 'N') L1 L2 L3 L4
        (':' :: mkAxis (cond bLon 'W' 'E') M1 M2 M3 (c :: cs) r)) =
      some (bLat, L1 ++ '.' :: (L2 ++ '.' :: (L3 ++ '.' :: (L4 ++
        ':' :: mkAxis (cond bLon 'W' 'E') M1 M2 M3 (c :: cs) r)))) := by
    cases bLat
    · exact matchDir_pos 'N' 'S' _
    · exact matchDir_neg _ (by decide)
  have haxlat := matchAxis_eq 'N' 'S' hlat _ _ _ _ _ rfl hL1 hL2 hL3 hL4 rfl
  have hcol := stripLit_append [':'] (mkAxis (cond bLon 'W' 'E') M1 M2 M3 (c :: cs) r)
  rw [List.singleton_append] at hcol
  -- the lon axis: the first three runs match exactly, the fourth matches
  -- a possibly longer run reaching into `r`
  obtain ⟨h1e, h1d⟩ := digitRun_spec hM1
  obtain ⟨h2e, h2d⟩ := digitRun_spec hM2
  obtain ⟨h3e, h3d⟩ := digitRun_spec hM3
  have hdot : ∀ l : List Char, notDigStart ('.' :: l) = true := fun _ => rfl
  have m1 : matchNum (M1 ++ '.' :: (M2 ++ '.' :: (M3 ++ '.' :: (c :: cs ++ r)))) =
      some (parseNatDigits M1, '.' :: (M2 ++ '.' :: (M3 ++ '.' :: (c :: cs ++ r)))) :=
    matchNum_digits_append _ h1e h1d (hdot _)
  have l1 := stripLit_append ['.'] (M2 ++ '.' :: (M3 ++ '.' :: (c :: cs ++ r)))
  rw [List.singleton_append] at l1
  have m2 : matchNum (M2 ++ '.' :: (M3 ++ '.' :: (c :: cs ++ r))) =
      some (parseNatDigits M2, '.' :: (M3 ++ '.' :: (c :: cs ++ r))) :=
    matchNum_digits_append _ h2e h2d (hdot _)
  have l2 := stripLit_append ['.'] (M3 ++ '.' :: (c :: cs ++ r))
  rw [List.singleton_append] at l2
  have m3 : matchNum (M3 ++ '.' :: (c :: cs ++ r)) =
      some (parseNatDigits M3, '.' :: (c :: cs ++ r)) :=
    matchNum_digits_append _ h3e h3d (hdot _)
  have l3 := stripLit_append ['.'] (c :: cs ++ r)
  rw [List.singleton_append] at l3
  obtain ⟨n, rest, m4⟩ := matchNum_digit_start (cs ++ r) (h4d c (by simp))
  have haxlon : matchAxis 'E' 'W' (mkAxis (cond bLon 'W' 'E') M1 M2 M3 (c :: cs) r) =
      some ((bLon, parseNatDigits M1, parseNatDigits M2, parseNatDigits M3, n), rest) := by
    have hdirlon : matchDir 'E' 'W' (mkAxis (cond bLon 'W' 'E') M1 M2 M3 (c :: cs) r) =
        some (bLon, M1 ++ '.' :: (M2 ++ '.' :: (M3 ++ '.' :: (c :: cs ++ r)))) := by
      cases bLon
      · exact matchDir_pos 'E' 'W' _
      · exact matchDir_neg _ (by decide)
    simp only [List.cons_append] at m1 l1 m2 l2 m3 l3 hdirlon
    simp [matchAxis, hdirlon, m1, l1, m2, l2, m3, l3, m4]
  simp [dmsMatch, mkCoordStr, hlit, haxlat, hcol, haxlon]

/-! ## Inversion of the matcher

Every accepted input decomposes as a built coordinate string: together with
the build lemmas this characterises acceptance exactly.
-/

theorem takeWhile_all_digits (s : List Char) :
    ∀ c ∈ s.takeWhile Char.isDigit, c.isDigit = true := by
  induction s with
  | nil =>
    intro c hc
    simp at hc
  | cons a t ih =>
    intro c hc
    by_cases ha : a.isDigit
    · simp only [List.takeWhile, ha] at hc
      rcases List.mem_cons.mp hc with rfl | hc'
      · exact ha
      · exact ih c hc'
    · simp [List.takeWhile, ha] at hc

theorem notDigStart_dropWhile (s : List Char) :
    notDigStart (s.dropWhile Char.isDigit) = true := by
  induction s with
  | nil => rfl
  | cons a t ih =>
    by_cases ha : a.isDigit
    · simpa [List.dropWhile, ha] using ih
    · simp [List.dropWhile, ha, notDigStart]

theorem stripLit_eq_some {l s r : List Char} (h : stripLit l s = some r) :
    s = l ++ r := by
  induction l generalizing s with
  | nil =>
    simp only [stripLit, Option.some.injEq] at h
    simp [← h]
  | cons c ls ih =>
    cases s with
    | nil => exact absurd h (by simp [stripLit])
    | cons c' cs =>
      by_cases hc : c' = c
      · subst hc
        simp only [stripLit, if_pos rfl] at h
        simp [ih h]
      · simp [stripLit, hc] at h

theorem matchDir_eq_some {pos neg : Char} {s r : List Char} {b : Bool}
    (h : matchDir pos neg s = some (b, r)) : s = (cond b neg pos) :: r := by
  cases s with
  | nil => exact absurd h (by simp [matchDir])
  | cons c cs =>
    by_cases h1 : c = pos
    · subst h1
      simp [matchDir] at h
      obtain ⟨hb, hr⟩ := h
      subst hr
      subst hb
      rfl
    · by_cases h2 : c = neg
      · subst h2
        simp [matchDir, h1] at h
        obtain ⟨hb, hr⟩ := h
        subst hr
        subst hb
        rfl
      · simp [matchDir, h1, h2] at h

theorem matchNum_eq_some {s r : List Char} {n : ℕ}
    (h : matchNum s = some (n, r)) :
    ∃ ds, s = ds ++ r ∧ digitRun ds = true ∧ n = parseNatDigits ds ∧
      notDigStart r = true := by
  unfold matchNum at h
  by_cases hte : s.takeWhile Char.isDigit = []
  · rw [if_pos hte] at h
    exact absurd h (by simp)
  · rw [if_neg hte] at h
    simp only [Option.some.injEq, Prod.mk.injEq] at h
    obtain ⟨hn, hr⟩ := h
    refine ⟨s.takeWhile Char.isDigit, ?_, ?_, hn.symm, ?_⟩
    · rw [← hr]
      exact (List.takeWhile_append_dropWhile Char.isDigit s).symm
    · simp only [digitRun, Bool.and_eq_true, Bool.not_eq_true', List.all_eq_true]
      exact ⟨by simpa [List.isEmpty_iff] using hte, takeWhile_all_digits s⟩
    · rw [← hr]
      exact notDigStart_dropWhile s

theorem matchAxis_eq_some {pos neg : Char} {s rest : List Char}
    {b : Bool} {v1 v2 v3 v4 : ℕ}
    (h : matchAxis pos neg s = some ((b, v1, v2, v3, v4), rest)) :
    ∃ D1 D2 D3 D4, s = (cond b neg pos) ::
        (D1 ++ '.' :: (D2 ++ '.' :: (D3 ++ '.' :: (D4 ++ rest)))) ∧
      digitRun D1 = true ∧ digitRun D2 = true ∧ digitRun D3 = true ∧
      digitRun D4 = true ∧ v1 = parseNatDigits D1 ∧ v2 = parseNatDigits D2 ∧
      v3 = parseNatDigits D3 ∧ v4 = parseNatDigits D4 ∧
      notDigStart rest = true := by
  unfold matchAxis at h
  cases hdir : matchDir pos neg s with
  | none => simp [hdir] at h
  | some pr =>
    obtain ⟨nb, s1⟩ := pr
    simp only [hdir, Option.bind_eq_bind, Option.some_bind] at h
    cases hn1 : matchNum s1 with
    | none => simp [hn1] at h
    | some p1 =>
      obtain ⟨n1, r1⟩ := p1
      simp only [hn1, Option.bind_eq_bind, Option.some_bind] at h
      cases hl1 : stripLit ['.'] r1 with
      | none => simp [hl1] at h
      | some s3 =>
        simp only [hl1, Option.bind_eq_bind, Option.some_bind] at h
        cases hn2 : matchNum s3 with
        | none => simp [hn2] at h
        | some p2 =>
          obtain ⟨n2, r2⟩ := p2
          simp only [hn2, Option.bind_eq_bind, Option.some_bind] at h
          cases hl2 : stripLit ['.'] r2 with
          | none => simp [hl2] at h
          | some s5 =>
            simp only [hl2, Option.bind_eq_bind, Option.some_bind] at h
            cases hn3 : matchNum s5 with
            | none => simp [hn3] at h
            | some p3 =>
              obtain ⟨n3, r3⟩ := p3
              simp only [hn3, Option.bind_eq_bind, Option.some_bind] at h
              cases hl3 : stripLit ['.'] r3 with
              | none => simp [hl3] at h
              | some s7 =>
                simp only [hl3, Option.bind_eq_bind, Option.some_bind] at h
                cases hn4 : matchNum s7 with
                | none => simp [hn4] at h
                | some p4 =>
                  obtain ⟨n4, r4⟩ := p4
                  simp only [hn4, Option.bind_eq_bind, Option.some_bind,
                    Option.pure_def, Option.some.injEq, Prod.mk.injEq] at h
                  obtain ⟨⟨hb, hv1, hv2, hv3, hv4⟩, hrest⟩ := h
                  obtain ⟨D1, hs1, hd1, hpn1, -⟩ := matchNum_eq_some hn1
                  obtain ⟨D2, hs3, hd2, hpn2, -⟩ := matchNum_eq_some hn2
                  obtain ⟨D3, hs5, hd3, hpn3, -⟩ := matchNum_eq_some hn3
                  obtain ⟨D4, hs7, hd4, hpn4, hnds⟩ := matchNum_eq_some hn4
                  have hr1 := stripLit_eq_some hl1
                  have hr2 := stripLit_eq_some hl2
                  have hr3 := stripLit_eq_some hl3
                  have hdir' := matchDir_eq_some hdir
                  subst hb hv1 hv2 hv3 hv4 hrest
                  refine ⟨D1, D2, D3, D4, ?_, hd1, hd2, hd3, hd4,
                    hpn1, hpn2, hpn3, hpn4, hnds⟩
                  rw [hdir', hs1, hr1, hs3, hr2, hs5, hr3, hs7]
                  simp

/-- Inversion of the matcher: an accepted input is exactly a built
coordinate string (with the captured direction flags) followed by an
arbitrary remainder. -/
theorem dmsMatch_eq_some {s : List Char} {f : DMS} (h : dmsMatch s = some f) :
    ∃ L1 L2 L3 L4 M1 M2 M3 M4 r,
      s = mkCoordStr (cond f.latNeg 'S' 'N') L1 L2 L3 L4
        (cond f.lonNeg 'W' 'E') M1 M2 M3 M4 r ∧
      digitRun L1 = true ∧ digitRun L2 = true ∧ digitRun L3 = true ∧
      digitRun L4 = true ∧ digitRun M1 = true ∧ digitRun M2 = true ∧
      digitRun M3 = true ∧ digitRun M4 = true := by
  unfold dmsMatch at h
  cases hc : stripLit ['C', 'O', 'O', 'R', 'D', ':'] s with
  | none => simp [hc] at h
  | some s1 =>
    simp only [hc, Option.bind_eq_bind, Option.some_bind] at h
    cases ha : matchAxis 'N' 'S' s1 with
    | none => simp [ha] at h
    | some pa =>
      obtain ⟨la, s2⟩ := pa
      obtain ⟨b1, n1, n2, n3, n4⟩ := la
      simp only [ha, Option.bind_eq_bind, Option.some_bind] at h
      cases hcol : stripLit [':'] s2 with
      | none => simp [hcol] at h
      | some s3 =>
        simp only [hcol, Option.bind_eq_bind, Option.some_bind] at h
        cases hax2 : matchAxis 'E' 'W' s3 with
        | none => simp [hax2] at h
        | some pb =>
          obtain ⟨lo, s4⟩ := pb
          obtain ⟨b2, m1, m2, m3, m4⟩ := lo
          simp only [hax2, Option.bind_eq_bind, Option.some_bind,
            Option.pure_def, Option.some.injEq] at h
          obtain ⟨L1, L2, L3, L4, hs1, hL1, hL2, hL3, hL4, -, -, -, -, -⟩ :=
            matchAxis_eq_some ha
          obtain ⟨M1, M2, M3, M4, hs3, hM1, hM2, hM3, hM4, -, -, -, -, -⟩ :=
            matchAxis_eq_some hax2
          have hcs := stripLit_eq_some hc
          have hcols := stripLit_eq_some hcol
          subst h
          refine ⟨L1, L2, L3, L4, M1, M2, M3, M4, s4, ?_, hL1, hL2, hL3, hL4,
            hM1, hM2, hM3, hM4⟩
          rw [hcs, hs1, hcols, hs3]
          simp [mkCoordStr, mkAxis]

/-! ## Values of padded digit runs -/

theorem digitChar_isDigit {d : ℕ} (h : d < 10) : (digitChar d).isDigit = true := by
  interval_cases d <;> decide

theorem digitChar_toNat {d : ℕ} (h : d < 10) : (digitChar d).toNat - 48 = d := by
  interval_cases d <;> decide

theorem pad_all_digits (w n : ℕ) : ∀ c ∈ pad w n, c.isDigit = true := by
  intro c hc
  rcases List.mem_append.mp hc with h | h
  · rcases List.eq_of_mem_replicate h with rfl
    decide
  · simp only [digitChars, List.mem_map] at h
    obtain ⟨d, hd, rfl⟩ := h
    exact digitChar_isDigit (Nat.digits_lt_base (by norm_num) (List.mem_reverse.mp hd))

theorem pad_ne_nil {w : ℕ} (hw : 0 < w) (n : ℕ) : pad w n ≠ [] := by
  have : 0 < (pad w n).length := by
    simp only [pad, List.length_append, List.length_replicate]
    omega
  exact List.ne_nil_of_length_pos this

theorem digitRun_pad {w : ℕ} (hw : 0 < w) (n : ℕ) : digitRun (pad w n) = true := by
  simp only [digitRun, Bool.and_eq_true, Bool.not_eq_true', List.all_eq_true]
  exact ⟨by simpa [List.isEmpty_iff] using pad_ne_nil hw n, pad_all_digits w n⟩

theorem foldl_digitChars (L : List ℕ) (h : ∀ d ∈ L, d < 10) (a : ℕ) :
    List.foldl (fun a c => 10 * a + (c.toNat - 48)) a (L.reverse.map digitChar) =
      a * 10 ^ L.length + Nat.ofDigits 10 L := by
  induction L generalizing a with
  | nil => simp
  | cons d L ih =>
    have hd : d < 10 := h d (by simp)
    have ih' := ih (fun x hx => h x (by simp [hx])) a
    simp only [List.reverse_cons, List.map_append, List.map_cons, List.map_nil,
      List.foldl_append, List.foldl_cons, List.foldl_nil, ih', digitChar_toNat hd,
      Nat.ofDigits_cons, List.length_cons]
    ring

theorem parseNatDigits_digitChars (n : ℕ) : parseNatDigits (digitChars n) = n := by
  have h := foldl_digitChars (Nat.digits 10 n)
    (fun d hd => Nat.digits_lt_base (by norm_num) hd) 0
  simpa [parseNatDigits, digitChars, Nat.ofDigits_digits] using h

theorem foldl_zeros (k : ℕ) :
    List.foldl (fun a c => 10 * a + (c.toNat - 48)) 0 (List.replicate k '0') = 0 := by
  induction k with
  | zero => rfl
  | succ k ih => simpa [List.replicate_succ] using ih

theorem parseNatDigits_pad (w n : ℕ) : parseNatDigits (pad w n) = n := by
  simp only [parseNatDigits, pad, List.foldl_append, foldl_zeros]
  exact parseNatDigits_digitChars n

/-! ## Truncating decomposition bounds -/

theorem pytrunc_nonneg {q : ℚ} (h : 0 ≤ q) : pytrunc q = ⌊q⌋ := if_pos h

/-- Bounds of one truncation step: scaling by `k` and taking the floor eats
less than `1 / k` of the value, and never overshoots. -/
theorem floor_scale_bounds (x k : ℚ) (hx : 0 ≤ x) (hk : 0 < k) :
    0 ≤ ⌊x * k⌋ ∧ 0 ≤ x - ⌊x * k⌋ / k ∧ x - ⌊x * k⌋ / k < 1 / k := by
  have h1 : (⌊x * k⌋ : ℚ) ≤ x * k := Int.floor_le _
  have h2 : x * k < ⌊x * k⌋ + 1 := Int.lt_floor_add_one _
  refine ⟨Int.floor_nonneg.mpr (mul_nonneg hx hk.le), ?_, ?_⟩
  · rw [sub_nonneg, div_le_iff₀ hk]
    exact h1
  · have hlt : x < ((⌊x * k⌋ : ℚ) + 1) / k := by
      rw [lt_div_iff₀ hk]
      linarith
    rw [sub_lt_iff_lt_add]
    calc x < ((⌊x * k⌋ : ℚ) + 1) / k := hlt
    _ = 1 / k + (⌊x * k⌋ : ℚ) / k := by ring

/-- All four truncated fields are nonnegative and the value they encode
undershoots the original by less than one milli-unit. -/
theorem trunc_fields (v : ℚ) (hv : 0 ≤ v) :
    0 ≤ degOf v ∧ 0 ≤ minOf v ∧ 0 ≤ secOf v ∧ 0 ≤ msOf v ∧
    0 ≤ v - ((degOf v : ℚ) + (minOf v : ℚ) / 60 + (secOf v : ℚ) / 3600 +
      (msOf v : ℚ) / 3600000) ∧
    v - ((degOf v : ℚ) + (minOf v : ℚ) / 60 + (secOf v : ℚ) / 3600 +
      (msOf v : ℚ) / 3600000) < 1 / 3600000 := by
  have hd_eq : degOf v = ⌊v⌋ := pytrunc_nonneg hv
  have hd0 : 0 ≤ degOf v := by
    rw [hd_eq]
    exact Int.floor_nonneg.mpr hv
  have hx1 : 0 ≤ v - (degOf v : ℚ) := by
    rw [hd_eq]
    linarith [Int.floor_le v]
  have hm_eq : minOf v = ⌊(v - (degOf v : ℚ)) * 60⌋ :=
    pytrunc_nonneg (mul_nonneg hx1 (by norm_num))
  have hmb := floor_scale_bounds (v - (degOf v : ℚ)) 60 hx1 (by norm_num)
  rw [← hm_eq] at hmb
  have hx2 : 0 ≤ v - (degOf v : ℚ) - (minOf v : ℚ) / 60 := by linarith [hmb.2.1]
  have hs_eq : secOf v = ⌊(v - (degOf v : ℚ) - (minOf v : ℚ) / 60) * 3600⌋ :=
    pytrunc_nonneg (mul_nonneg hx2 (by norm_num))
  have hsb := floor_scale_bounds (v - (degOf v : ℚ) - (minOf v : ℚ) / 60) 3600
    hx2 (by norm_num)
  rw [← hs_eq] at hsb
  have hx3 : 0 ≤ v - (degOf v : ℚ) - (minOf v : ℚ) / 60 - (secOf v : ℚ) / 3600 := by
    linarith [hsb.2.1]
  have hms_eq : msOf v =
      ⌊(v - (degOf v : ℚ) - (minOf v : ℚ) / 60 - (secOf v : ℚ) / 3600) * 3600000⌋ :=
    pytrunc_nonneg (mul_nonneg hx3 (by norm_num))
  have hmsb := floor_scale_bounds
    (v - (degOf v : ℚ) - (minOf v : ℚ) / 60 - (secOf v : ℚ) / 3600) 3600000
    hx3 (by norm_num)
  rw [← hms_eq] at hmsb
  exact ⟨hd0, hmb.1, hsb.1, hmsb.1, by linarith [hmsb.2.1], by linarith [hmsb.2.2]⟩

/-- A nonnegative value reconstructed from its own truncated fields (as the
naturals the formatter prints) lies within one milli-unit below it. -/
theorem recon_close {v : ℚ} (hv : 0 ≤ v) :
    0 ≤ v - (((degOf v).toNat : ℚ) + ((minOf v).toNat : ℚ) / 60 +
      ((secOf v).toNat : ℚ) / 3600 + ((msOf v).toNat : ℚ) / 3600000) ∧
    v - (((degOf v).toNat : ℚ) + ((minOf v).toNat : ℚ) / 60 +
      ((secOf v).toNat : ℚ) / 3600 + ((msOf v).toNat : ℚ) / 3600000) < 1 / 3600000 := by
  obtain ⟨hd0, hm0, hs0, hms0, hlo, hhi⟩ := trunc_fields v hv
  have cd : ((degOf v).toNat : ℚ) = ((degOf v : ℤ) : ℚ) := by
    exact_mod_cast Int.toNat_of_nonneg hd0
  have cm : ((minOf v).toNat : ℚ) = ((minOf v : ℤ) : ℚ) := by
    exact_mod_cast Int.toNat_of_nonneg hm0
  have cs : ((secOf v).toNat : ℚ) = ((secOf v : ℤ) : ℚ) := by
    exact_mod_cast Int.toNat_of_nonneg hs0
  have cms : ((msOf v).toNat : ℚ) = ((msOf v : ℤ) : ℚ) := by
    exact_mod_cast Int.toNat_of_nonneg hms0
  rw [cd, cm, cs, cms]
  exact ⟨hlo, hhi⟩

/-- The formatter produces exactly a built coordinate string. -/
theorem decimal_to_dms_eq (lat lon : ℚ) :
    decimal_to_dms lat lon = mkCoordStr (if 0 ≤ lat then 'N' else 'S')
      (pad 3 (degOf |lat|).toNat) (pad 2 (minOf |lat|).toNat)
      (pad 2 (secOf |lat|).toNat) (pad 3 (msOf |lat|).toNat)
      (if 0 ≤ lon then 'E' else 'W')
      (pad 3 (degOf |lon|).toNat) (pad 2 (minOf |lon|).toNat)
      (pad 2 (secOf |lon|).toNat) (pad 3 (msOf |lon|).toNat) [] := by
  simp [decimal_to_dms, to_dms, mkCoordStr, mkAxis, List.append_assoc]

/-- Parsing one formatted axis back recovers the value to within one
milli-unit, whatever the sign. -/
theorem axis_bound (v : ℚ) :
    |v - axisValue (!decide (0 ≤ v)) (degOf |v|).toNat (minOf |v|).toNat
      (secOf |v|).toNat (msOf |v|).toNat| < 1 / 3600000 := by
  obtain ⟨hlo, hhi⟩ := recon_close (abs_nonneg v)
  set R : ℚ := ((degOf |v|).toNat : ℚ) + ((minOf |v|).toNat : ℚ) / 60 +
    ((secOf |v|).toNat : ℚ) / 3600 + ((msOf |v|).toNat : ℚ) / 3600000 with hR
  by_cases h : 0 ≤ v
  · have hval : axisValue (!decide (0 ≤ v)) (degOf |v|).toNat (minOf |v|).toNat
        (secOf |v|).toNat (msOf |v|).toNat = R := by
      simp [axisValue, h, hR]
    rw [hval]
    have habs : |v| = v := abs_of_nonneg h
    rw [habs] at hlo hhi
    rw [abs_of_nonneg hlo]
    exact hhi
  · have hval : axisValue (!decide (0 ≤ v)) (degOf |v|).toNat (minOf |v|).toNat
        (secOf |v|).toNat (msOf |v|).toNat = -R := by
      simp [axisValue, h, hR]
    have hv' : v = -|v| := by
      rw [abs_of_neg (not_le.mp h)]
      ring
    rw [hval, hv']
    have hflip : -|v| - -R = -(|v| - R) := by ring
    rw [hflip, abs_neg, abs_of_nonneg hlo]
    exact hhi

/-- Full codec round trip: formatting then parsing always succeeds and
returns the per-axis reconstructed values. -/
theorem codec_round_trip (lat lon : ℚ) :
    dms_to_decimal (decimal_to_dms lat lon) =
      some (axisValue (!decide (0 ≤ lat)) (degOf |lat|).toNat (minOf |lat|).toNat
          (secOf |lat|).toNat (msOf |lat|).toNat,
        axisValue (!decide (0 ≤ lon)) (degOf |lon|).toNat (minOf |lon|).toNat
          (secOf |lon|).toNat (msOf |lon|).toNat) := by
  have hlatC : (if 0 ≤ lat then 'N' else 'S') = cond (!decide (0 ≤ lat)) 'S' 'N' := by
    by_cases h : 0 ≤ lat <;> simp [h]
  have hlonC : (if 0 ≤ lon then 'E' else 'W') = cond (!decide (0 ≤ lon)) 'W' 'E' := by
    by_cases h : 0 ≤ lon <;> simp [h]
  have hb := dmsMatch_build (!decide (0 ≤ lat)) (!decide (0 ≤ lon))
    (pad 3 (degOf |lat|).toNat) (pad 2 (minOf |lat|).toNat)
    (pad 2 (secOf |lat|).toNat) (pad 3 (msOf |lat|).toNat)
    (pad 3 (degOf |lon|).toNat) (pad 2 (minOf |lon|).toNat)
    (pad 2 (secOf |lon|).toNat) (pad 3 (msOf |lon|).toNat) []
    (digitRun_pad (by norm_num) _) (digitRun_pad (by norm_num) _)
    (digitRun_pad (by norm_num) _) (digitRun_pad (by norm_num) _)
    (digitRun_pad (by norm_num) _) (digitRun_pad (by norm_num) _)
    (digitRun_pad (by norm_num) _) (digitRun_pad (by norm_num) _) rfl
  rw [decimal_to_dms_eq, hlatC, hlonC]
  unfold dms_to_decimal
  rw [hb]
  simp [parseNatDigits_pad]

/-! ## Claims about the mirror transform -/

/-- C8: for every angle, applying the mirror transform to a point exactly
equal to the reference point returns exactly the reference point. -/
theorem c8_mirror_fixed_point (ref_lat ref_lon angle : ℝ) :
    mirror_point ref_lat ref_lon ref_lat ref_lon angle = (ref_lat, ref_lon) := by
  simp only [mirror_point, Prod.mk.injEq]
  constructor <;> ring

/-- C4: the mirror transform is an involution: applying it twice with the
same reference and angle returns the original point exactly (hence within
any tolerance, in particular 1e-6 per axis). -/
theorem c4_mirror_involution (lat lon ref_lat ref_lon angle : ℝ) :
    mirror_point (mirror_point lat lon ref_lat ref_lon angle).1
      (mirror_point lat lon ref_lat ref_lon angle).2 ref_lat ref_lon angle =
      (lat, lon) := by
  have hsc := Real.sin_sq_add_cos_sq (angle * (Real.pi / 180))
  simp only [mirror_point, Real.cos_neg, Real.sin_neg, Prod.mk.injEq]
  constructor
  · linear_combination ((lat - ref_lat) * (Real.sin (angle * (Real.pi / 180)) ^ 2 +
      Real.cos (angle * (Real.pi / 180)) ^ 2 + 1)) * hsc
  · linear_combination ((lon - ref_lon) * (Real.sin (angle * (Real.pi / 180)) ^ 2 +
      Real.cos (angle * (Real.pi / 180)) ^ 2 + 1)) * hsc

/-- C5 counterexample: the rotate-back step does not compute the formulas
lat' = rot_a·cos θ + rot_b'·sin θ + ref_lat, lon' = -rot_a·sin θ +
rot_b'·cos θ + ref_lon claimed by the specification: at the point (1, 0),
reference (0, 0) and angle 90° the code returns latitude -1 while the
claimed formulas give +1. -/
theorem c5_counterexample :
    mirror_point 1 0 0 0 90 ≠
      rotate_back_spec (rotA 1 0 0 0 90) (rotBp 1 0 0 0 90) 0 0
        (90 * (Real.pi / 180)) := by
  have hθ : (90 : ℝ) * (Real.pi / 180) = Real.pi / 2 := by ring
  simp only [mirror_point, rotate_back_spec, rotA, rotBp, hθ, Real.cos_neg,
    Real.sin_neg, Real.cos_pi_div_two, Real.sin_pi_div_two, ne_eq, Prod.mk.injEq,
    not_and]
  intro h
  norm_num at h

/-- C5 (amended): the rotate-back step computes
lat' = rot_a·cos(-θ) + rot_b'·sin(-θ) + ref_lat and
lon' = -rot_a·sin(-θ) + rot_b'·cos(-θ) + ref_lon, i.e., in terms of the
positive angle, lat' = rot_a·cos θ - rot_b'·sin θ + ref_lat and
lon' = rot_a·sin θ + rot_b'·cos θ + ref_lon, where rot_a and rot_b' are the
rotated and reflected components of the preceding steps. -/
theorem c5_rotate_back_formulas (lat lon ref_lat ref_lon angle : ℝ) :
    mirror_point lat lon ref_lat ref_lon angle =
      (rotA lat lon ref_lat ref_lon angle * Real.cos (angle * (Real.pi / 180)) -
         rotBp lat lon ref_lat ref_lon angle * Real.sin (angle * (Real.pi / 180)) +
         ref_lat,
       rotA lat lon ref_lat ref_lon angle * Real.sin (angle * (Real.pi / 180)) +
         rotBp lat lon ref_lat ref_lon angle * Real.cos (angle * (Real.pi / 180)) +
         ref_lon) := by
  simp only [mirror_point, rotA, rotBp, Real.cos_neg, Real.sin_neg, Prod.mk.injEq]
  constructor <;> ring

/-- C3 counterexample: there is no identity short-circuit for points within
1e-9 of the reference: the point (0, 1e-10), which differs from the
reference (0, 0) by at most 1e-9 on both axes, is not returned unchanged by
the transform at angle 0 (it is reflected to (0, -1e-10)). -/
theorem c3_counterexample :
    (|(0 : ℝ) - 0| ≤ 1e-9 ∧ |(1e-10 : ℝ) - 0| ≤ 1e-9) ∧
      mirror_point 0 1e-10 0 0 0 ≠ (0, 1e-10) := by
  constructor
  · refine ⟨by norm_num, ?_⟩
    rw [sub_zero, abs_of_nonneg (by norm_num : (0 : ℝ) ≤ 1e-10)]
    norm_num
  · simp only [mirror_point, ne_eq, Prod.mk.injEq, not_and]
    norm_num

/-- C3 (amended): the transform performs no tolerance-based short-circuit;
only a point exactly equal to the reference is guaranteed to be returned
unchanged (which it is, exactly, for every mirror angle). -/
theorem c3_exact_ref_unchanged (lat lon ref_lat ref_lon angle : ℝ)
    (h1 : lat = ref_lat) (h2 : lon = ref_lon) :
    mirror_point lat lon ref_lat ref_lon angle = (lat, lon) := by
  subst h1
  subst h2
  simp only [mirror_point, Prod.mk.injEq]
  constructor <;> ring

/-- C3 witness: the amended theorem applied at the point (2, 3) equal to the
reference (2, 3), with angle 1. -/
theorem c3_exact_ref_unchanged_witness :
    (2 : ℝ) = 2 ∧ (3 : ℝ) = 3 ∧ mirror_point 2 3 2 3 1 = (2, 3) :=
  ⟨rfl, rfl, c3_exact_ref_unchanged 2 3 2 3 1 rfl rfl⟩

/-! ## Claims about the codec -/

/-- C6: round trip with tolerance: formatting a decimal pair in range and
parsing it back yields a pair within 1/3600000 of the original on each
axis. -/
theorem c6_round_trip_tolerance (lat lon : ℚ)
    (hlat1 : -90 ≤ lat) (hlat2 : lat ≤ 90)
    (hlon1 : -180 ≤ lon) (hlon2 : lon ≤ 180) :
    ∃ p : ℚ × ℚ, dms_to_decimal (decimal_to_dms lat lon) = some p ∧
      |lat - p.1| < 1 / 3600000 ∧ |lon - p.2| < 1 / 3600000 :=
  ⟨_, codec_round_trip lat lon, axis_bound lat, axis_bound lon⟩

/-- C6 witness: the round-trip theorem applied at (8, -115). -/
theorem c6_round_trip_tolerance_witness :
    ((-90 : ℚ) ≤ 8 ∧ (8 : ℚ) ≤ 90 ∧ (-180 : ℚ) ≤ -115 ∧ (-115 : ℚ) ≤ 180) ∧
      ∃ p : ℚ × ℚ, dms_to_decimal (decimal_to_dms 8 (-115)) = some p ∧
        |(8 : ℚ) - p.1| < 1 / 3600000 ∧ |(-115 : ℚ) - p.2| < 1 / 3600000 :=
  ⟨⟨by norm_num, by norm_num, by norm_num, by norm_num⟩,
    c6_round_trip_tolerance 8 (-115) (by norm_num) (by norm_num)
      (by norm_num) (by norm_num)⟩

/-- C9: every string built from the grammar parses to
sign × (deg + min/60 + sec/3600 + msec/3600000) per axis, with the negative
sign exactly for the 'S' and 'W' letters; digit runs of any length and
values out of conventional range are accepted unchanged. -/
theorem c9_parse_value_formula (bLat bLon : Bool) (L1 L2 L3 L4 M1 M2 M3 M4 : List Char)
    (hL1 : digitRun L1 = true) (hL2 : digitRun L2 = true)
    (hL3 : digitRun L3 = true) (hL4 : digitRun L4 = true)
    (hM1 : digitRun M1 = true) (hM2 : digitRun M2 = true)
    (hM3 : digitRun M3 = true) (hM4 : digitRun M4 = true) :
    dms_to_decimal (mkCoordStr (cond bLat 'S' 'N') L1 L2 L3 L4
        (cond bLon 'W' 'E') M1 M2 M3 M4 []) =
      some ((cond bLat (-1) 1) * ((parseNatDigits L1 : ℚ) +
          (parseNatDigits L2 : ℚ) / 60 + (parseNatDigits L3 : ℚ) / 3600 +
          (parseNatDigits L4 : ℚ) / 3600000),
        (cond bLon (-1) 1) * ((parseNatDigits M1 : ℚ) +
          (parseNatDigits M2 : ℚ) / 60 + (parseNatDigits M3 : ℚ) / 3600 +
          (parseNatDigits M4 : ℚ) / 3600000)) := by
  have hb := dmsMatch_build bLat bLon L1 L2 L3 L4 M1 M2 M3 M4 []
    hL1 hL2 hL3 hL4 hM1 hM2 hM3 hM4 rfl
  unfold dms_to_decimal
  rw [hb]
  cases bLat <;> cases bLon <;>
    simp [axisValue, neg_one_mul]

/-- C9 witness: the value formula applied with latitude letter 'S', a
1-digit-wide degree run and a minutes field of 99 (out of conventional
range), and longitude letter 'E' with all-zero runs. -/
theorem c9_parse_value_formula_witness :
    (digitRun ['1'] = true ∧ digitRun ['9', '9'] = true ∧
      digitRun ['0', '0'] = true ∧ digitRun ['0', '0', '0'] = true ∧
      digitRun ['0', '0', '0'] = true ∧ digitRun ['0', '0'] = true ∧
      digitRun ['0', '0'] = true ∧ digitRun ['0', '0', '0'] = true) ∧
    dms_to_decimal (mkCoordStr (cond true 'S' 'N') ['1'] ['9', '9'] ['0', '0']
        ['0', '0', '0'] (cond false 'W' 'E') ['0', '0', '0'] ['0', '0'] ['0', '0']
        ['0', '0', '0'] []) =
      some ((cond true (-1) 1) * ((parseNatDigits ['1'] : ℚ) +
          (parseNatDigits ['9', '9'] : ℚ) / 60 + (parseNatDigits ['0', '0'] : ℚ) / 3600 +
          (parseNatDigits ['0', '0', '0'] : ℚ) / 3600000),
        (cond false (-1) 1) * ((parseNatDigits ['0', '0', '0'] : ℚ) +
          (parseNatDigits ['0', '0'] : ℚ) / 60 + (parseNatDigits ['0', '0'] : ℚ) / 3600 +
          (parseNatDigits ['0', '0', '0'] : ℚ) / 3600000)) :=
  ⟨⟨by decide, by decide, by decide, by decide, by decide, by decide, by decide,
      by decide⟩,
    c9_parse_value_formula true false ['1'] ['9', '9'] ['0', '0'] ['0', '0', '0']
      ['0', '0', '0'] ['0', '0'] ['0', '0'] ['0', '0', '0'] (by decide) (by decide)
      (by decide) (by decide) (by decide) (by decide) (by decide) (by decide)⟩

/-- C2 counterexample: parsing is not match-all-or-fail: the deviant string
with extra trailing text "XYZ" after a full grammar match is accepted, not
rejected. -/
theorem c2_counterexample :
    dms_to_decimal ("COORD:N000.00.00.000:E000.00.00.000XYZ".toList) ≠ none := by
  decide

/-- C2 (amended): parsing fails exactly when no prefix of the input matches
the grammar: the two cited malformed strings (wrong direction letter,
missing colon) raise the format error, and in general an input raises the
format error if and only if it cannot be decomposed as a direction-and-digit
coordinate pattern followed by arbitrary trailing text — so every deviation
in the matched region is rejected, but extra text after a full match is
accepted. -/
theorem c2_parse_rejection :
    dms_to_decimal ("COORD:X008.44.47.005:E115.10.34.143".toList) = none ∧
    dms_to_decimal ("COORD:S8.44.47.005E115.10.34.143".toList) = none ∧
    ∀ s : List Char, dms_to_decimal s = none ↔
      ¬ ∃ (bLat bLon : Bool) (L1 L2 L3 L4 M1 M2 M3 M4 r : List Char),
        s = mkCoordStr (cond bLat 'S' 'N') L1 L2 L3 L4
          (cond bLon 'W' 'E') M1 M2 M3 M4 r ∧
        digitRun L1 = true ∧ digitRun L2 = true ∧ digitRun L3 = true ∧
        digitRun L4 = true ∧ digitRun M1 = true ∧ digitRun M2 = true ∧
        digitRun M3 = true ∧ digitRun M4 = true := by
  refine ⟨by decide, by decide, fun s => ⟨?_, ?_⟩⟩
  · rintro hnone ⟨bLat, bLon, L1, L2, L3, L4, M1, M2, M3, M4, r, rfl,
      h1, h2, h3, h4, h5, h6, h7, h8⟩
    have hsome := dmsMatch_build_isSome bLat bLon L1 L2 L3 L4 M1 M2 M3 M4 r
      h1 h2 h3 h4 h5 h6 h7 h8
    rw [← Option.ne_none_iff_isSome] at hsome
    exact hsome (by simpa [dms_to_decimal, Option.map_eq_none'] using hnone)
  · intro hno
    cases ho : dmsMatch s with
    | none => simp [dms_to_decimal, ho]
    | some f =>
      obtain ⟨L1, L2, L3, L4, M1, M2, M3, M4, r, hs, h1, h2, h3, h4, h5, h6,
        h7, h8⟩ := dmsMatch_eq_some ho
      exact absurd ⟨f.latNeg, f.lonNeg, L1, L2, L3, L4, M1, M2, M3, M4, r, hs,
        h1, h2, h3, h4, h5, h6, h7, h8⟩ hno

/-- C2 witness: the characterisation applied to the cited wrong-direction
string, concluding that it admits no grammar-prefix decomposition. -/
theorem c2_parse_rejection_witness :
    ¬ ∃ (bLat bLon : Bool) (L1 L2 L3 L4 M1 M2 M3 M4 r : List Char),
      "COORD:X008.44.47.005:E115.10.34.143".toList =
        mkCoordStr (cond bLat 'S' 'N') L1 L2 L3 L4
          (cond bLon 'W' 'E') M1 M2 M3 M4 r ∧
      digitRun L1 = true ∧ digitRun L2 = true ∧ digitRun L3 = true ∧
      digitRun L4 = true ∧ digitRun M1 = true ∧ digitRun M2 = true ∧
      digitRun M3 = true ∧ digitRun M4 = true :=
  (c2_parse_rejection.2.2 ("COORD:X008.44.47.005:E115.10.34.143".toList)).mp
    (by decide)

/-! ## Claims about the pipeline driver -/

/-- Abort propagation of the batch loop: a single unparseable member makes
the whole call fail. -/
theorem parse_failure_aborts (coords : List (List Char))
    (ref_lat ref_lon angle : ℝ)
    (h : ∃ c ∈ coords, dms_to_decimal c = none) :
    mirror_coordinates coords ref_lat ref_lon angle = none := by
  induction coords with
  | nil => simp at h
  | cons c cs ih =>
    obtain ⟨b, hb, hbad⟩ := h
    rcases List.mem_cons.mp hb with rfl | hmem
    · simp [mirror_coordinates, hbad]
    · cases hdc : dms_to_decimal c with
      | none => simp [mirror_coordinates, hdc]
      | some p =>
        cases p with
        | mk la lo => simp [mirror_coordinates, hdc, ih ⟨b, hmem, hbad⟩]

/-- C1 (amended): there is no skip-and-continue: a parse failure inside the
batch loop propagates and aborts the whole call, so any batch containing a
malformed entry produces no output at all. -/
theorem c1_malformed_aborts_batch (coords : List (List Char))
    (ref_lat ref_lon angle : ℝ)
    (h : ∃ c ∈ coords, dms_to_decimal c = none) :
    mirror_coordinates coords ref_lat ref_lon angle = none :=
  parse_failure_aborts coords ref_lat ref_lon angle h

/-- C1 witness: the abort theorem applied to a batch of two valid entries
around the malformed entry cited by the specification. -/
theorem c1_malformed_aborts_batch_witness :
    (∃ c ∈ ["COORD:N000.00.00.000:E000.00.00.000".toList,
        "COORD:S8.44.47.005E115.10.34.143".toList,
        "COORD:N001.00.00.000:E001.00.00.000".toList], dms_to_decimal c = none) ∧
    mirror_coordinates ["COORD:N000.00.00.000:E000.00.00.000".toList,
        "COORD:S8.44.47.005E115.10.34.143".toList,
        "COORD:N001.00.00.000:E001.00.00.000".toList] 0 0 0 = none :=
  ⟨⟨"COORD:S8.44.47.005E115.10.34.143".toList,
      List.mem_cons_of_mem _ (List.mem_cons_self _ _), by decide⟩,
    c1_malformed_aborts_batch _ 0 0 0
      ⟨"COORD:S8.44.47.005E115.10.34.143".toList,
        List.mem_cons_of_mem _ (List.mem_cons_self _ _), by decide⟩⟩

/-- C1 counterexample: a batch of one malformed entry among two valid ones
does not yield two output coordinates: the whole call returns the error. -/
theorem c1_counterexample :
    ¬ ∃ out, mirror_coordinates ["COORD:N000.00.00.000:E000.00.00.000".toList,
        "COORD:S8.44.47.005E115.10.34.143".toList,
        "COORD:N001.00.00.000:E001.00.00.000".toList] 0 0 0 = some out ∧
      out.length = 2 := by
  rintro ⟨out, hout, hlen⟩
  rw [parse_failure_aborts _ 0 0 0
    ⟨"COORD:S8.44.47.005E115.10.34.143".toList,
      List.mem_cons_of_mem _ (List.mem_cons_self _ _), by decide⟩] at hout
  exact Option.noConfusion hout

/-! ## Claims about the offset anchor -/

/-- Characterisation of the stable minimum scan: it returns an element of
the list that is minimal for the key, and strictly below every element
before its position (first minimal element wins ties). -/
theorem minByKey_spec (f : ℝ × ℝ → ℝ) (h : ℝ × ℝ) (t : List (ℝ × ℝ)) :
    ∃ j : ℕ, ∃ hj : j < (h :: t).length,
      (h :: t).get ⟨j, hj⟩ = minByKey f h t ∧
      (∀ i (hi : i < (h :: t).length),
        f (minByKey f h t) ≤ f ((h :: t).get ⟨i, hi⟩)) ∧
      (∀ i (hi : i < j), f (minByKey f h t) < f ((h :: t).get ⟨i, hi.trans hj⟩)) := by
  induction t generalizing h with
  | nil =>
    refine ⟨0, Nat.succ_pos 0, rfl, ?_, ?_⟩
    · intro i hi
      cases i with
      | zero => exact le_refl _
      | succ i' => exact absurd (Nat.lt_of_succ_lt_succ hi) (Nat.not_lt_zero i')
    · intro i hi
      exact absurd hi (Nat.not_lt_zero i)
  | cons x t ih =>
    have hstep : minByKey f h (x :: t) = minByKey f (if f x < f h then x else h) t := rfl
    by_cases hc : f x < f h
    · rw [hstep, if_pos hc]
      obtain ⟨j, hj, hget, hmin, hfirst⟩ := ih x
      refine ⟨j + 1, Nat.succ_lt_succ hj, hget, ?_, ?_⟩
      · intro i hi
        cases i with
        | zero => exact le_of_lt (lt_of_le_of_lt (hmin 0 (Nat.succ_pos _)) hc)
        | succ i' => exact hmin i' (Nat.lt_of_succ_lt_succ hi)
      · intro i hi
        cases i with
        | zero => exact lt_of_le_of_lt (hmin 0 (Nat.succ_pos _)) hc
        | succ i' => exact hfirst i' (Nat.lt_of_succ_lt_succ hi)
    · rw [hstep, if_neg hc]
      obtain ⟨j, hj, hget, hmin, hfirst⟩ := ih h
      cases j with
      | zero =>
        refine ⟨0, Nat.succ_pos _, hget, ?_, ?_⟩
        · intro i hi
          cases i with
          | zero => exact hmin 0 (Nat.succ_pos _)
          | succ i' =>
            cases i' with
            | zero => exact le_trans (hmin 0 (Nat.succ_pos _)) (not_lt.mp hc)
            | succ i'' =>
              exact hmin (i'' + 1)
                (Nat.succ_lt_succ (Nat.lt_of_succ_lt_succ (Nat.lt_of_succ_lt_succ hi)))
        · intro i hi
          exact absurd hi (Nat.not_lt_zero i)
      | succ k =>
        refine ⟨k + 2, Nat.succ_lt_succ hj, hget, ?_, ?_⟩
        · intro i hi
          cases i with
          | zero => exact hmin 0 (Nat.succ_pos _)
          | succ i' =>
            cases i' with
            | zero => exact le_trans (hmin 0 (Nat.succ_pos _)) (not_lt.mp hc)
            | succ i'' =>
              exact hmin (i'' + 1)
                (Nat.succ_lt_succ (Nat.lt_of_succ_lt_succ (Nat.lt_of_succ_lt_succ hi)))
        · intro i hi
          cases i with
          | zero => exact hfirst 0 (Nat.succ_pos _)
          | succ i' =>
            cases i' with
            | zero =>
              exact lt_of_lt_of_le (hfirst 0 (Nat.succ_pos _)) (not_lt.mp hc)
            | succ i'' =>
              exact hfirst (i'' + 1)
                (Nat.succ_lt_succ (Nat.lt_of_succ_lt_succ (Nat.lt_of_succ_lt_succ hi)))

/-- Parsing the all-zero coordinate string gives (0, 0). -/
theorem dms_parse_zeros :
    dms_to_decimal ("COORD:N000.00.00.000:E000.00.00.000".toList) = some (0, 0) := by
  have hs : "COORD:N000.00.00.000:E000.00.00.000".toList =
      mkCoordStr (cond false 'S' 'N') ['0', '0', '0'] ['0', '0'] ['0', '0']
        ['0', '0', '0'] (cond false 'W' 'E') ['0', '0', '0'] ['0', '0'] ['0', '0']
        ['0', '0', '0'] [] := by decide
  rw [hs]
  have hb := dmsMatch_build false false ['0', '0', '0'] ['0', '0'] ['0', '0']
    ['0', '0', '0'] ['0', '0', '0'] ['0', '0'] ['0', '0'] ['0', '0', '0'] []
    (by decide) (by decide) (by decide) (by decide) (by decide) (by decide)
    (by decide) (by decide) rfl
  unfold dms_to_decimal
  rw [hb]
  have hz3 : parseNatDigits ['0', '0', '0'] = 0 := by decide
  have hz2 : parseNatDigits ['0', '0'] = 0 := by decide
  simp [hz3, hz2, axisValue]

/-- Parsing the one-degree coordinate string gives (1, 1). -/
theorem dms_parse_ones :
    dms_to_decimal ("COORD:N001.00.00.000:E001.00.00.000".toList) = some (1, 1) := by
  have hs : "COORD:N001.00.00.000:E001.00.00.000".toList =
      mkCoordStr (cond false 'S' 'N') ['0', '0', '1'] ['0', '0'] ['0', '0']
        ['0', '0', '0'] (cond false 'W' 'E') ['0', '0', '1'] ['0', '0'] ['0', '0']
        ['0', '0', '0'] [] := by decide
  rw [hs]
  have hb := dmsMatch_build false false ['0', '0', '1'] ['0', '0'] ['0', '0']
    ['0', '0', '0'] ['0', '0', '1'] ['0', '0'] ['0', '0'] ['0', '0', '0'] []
    (by decide) (by decide) (by decide) (by decide) (by decide) (by decide)
    (by decide) (by decide) rfl
  unfold dms_to_decimal
  rw [hb]
  have ho : parseNatDigits ['0', '0', '1'] = 1 := by decide
  have hz3 : parseNatDigits ['0', '0', '0'] = 0 := by decide
  have hz2 : parseNatDigits ['0', '0'] = 0 := by decide
  simp [ho, hz3, hz2, axisValue]

/-- C7: on a nonempty mirrored batch with parseable reference and target,
the offset step translates every element by one identical vector (so order
and length are preserved), and the element at the position of the first
minimal Euclidean distance to the reference lands within 1e-9 of the target
on each axis. -/
theorem c7_offset_anchor (mirrored : List (ℝ × ℝ)) (ref tgt : List Char)
    (rlat rlon flat flon : ℚ)
    (href : dms_to_decimal ref = some (rlat, rlon))
    (htgt : dms_to_decimal tgt = some (flat, flon))
    (hne : mirrored ≠ []) :
    ∃ dlat dlon : ℝ,
      apply_offset mirrored ref tgt =
        some (mirrored.map fun p => (p.1 + dlat, p.2 + dlon)) ∧
      ∃ j, ∃ hj : j < mirrored.length,
        (∀ i (hi : i < mirrored.length),
          hypot ((mirrored.get ⟨j, hj⟩).1 - (rlat : ℝ))
              ((mirrored.get ⟨j, hj⟩).2 - (rlon : ℝ)) ≤
            hypot ((mirrored.get ⟨i, hi⟩).1 - (rlat : ℝ))
              ((mirrored.get ⟨i, hi⟩).2 - (rlon : ℝ))) ∧
        (∀ i (hi : i < j),
          hypot ((mirrored.get ⟨j, hj⟩).1 - (rlat : ℝ))
              ((mirrored.get ⟨j, hj⟩).2 - (rlon : ℝ)) <
            hypot ((mirrored.get ⟨i, hi.trans hj⟩).1 - (rlat : ℝ))
              ((mirrored.get ⟨i, hi.trans hj⟩).2 - (rlon : ℝ))) ∧
        |(mirrored.get ⟨j, hj⟩).1 + dlat - (flat : ℝ)| ≤ 1e-9 ∧
        |(mirrored.get ⟨j, hj⟩).2 + dlon - (flon : ℝ)| ≤ 1e-9 := by
  obtain ⟨h, t, rfl⟩ := List.exists_cons_of_ne_nil hne
  obtain ⟨j, hj, hget, hmin, hfirst⟩ :=
    minByKey_spec (fun p => hypot (p.1 - (rlat : ℝ)) (p.2 - (rlon : ℝ))) h t
  refine ⟨(flat : ℝ) -
      (minByKey (fun p => hypot (p.1 - (rlat : ℝ)) (p.2 - (rlon : ℝ))) h t).1,
    (flon : ℝ) -
      (minByKey (fun p => hypot (p.1 - (rlat : ℝ)) (p.2 - (rlon : ℝ))) h t).2,
    ?_, j, hj, ?_, ?_, ?_, ?_⟩
  · simp [apply_offset, href, htgt]
  · intro i hi
    rw [hget]
    exact hmin i hi
  · intro i hi
    rw [hget]
    exact hfirst i hi
  · rw [hget]
    have hz : (minByKey (fun p => hypot (p.1 - (rlat : ℝ)) (p.2 - (rlon : ℝ))) h t).1 +
        ((flat : ℝ) -
          (minByKey (fun p => hypot (p.1 - (rlat : ℝ)) (p.2 - (rlon : ℝ))) h t).1) -
        (flat : ℝ) = 0 := by ring
    rw [hz, abs_zero]
    norm_num
  · rw [hget]
    have hz : (minByKey (fun p => hypot (p.1 - (rlat : ℝ)) (p.2 - (rlon : ℝ))) h t).2 +
        ((flon : ℝ) -
          (minByKey (fun p => hypot (p.1 - (rlat : ℝ)) (p.2 - (rlon : ℝ))) h t).2) -
        (flon : ℝ) = 0 := by ring
    rw [hz, abs_zero]
    norm_num

/-- C7 witness: the anchor theorem applied to the batch [(0, 0), (3, 4)]
with reference (0, 0) and target (1, 1). -/
theorem c7_offset_anchor_witness :
    (dms_to_decimal ("COORD:N000.00.00.000:E000.00.00.000".toList) = some (0, 0) ∧
      dms_to_decimal ("COORD:N001.00.00.000:E001.00.00.000".toList) = some (1, 1) ∧
      ([((0 : ℝ), (0 : ℝ)), ((3 : ℝ), (4 : ℝ))] : List (ℝ × ℝ)) ≠ []) ∧
    (∃ dlat dlon : ℝ,
      apply_offset [((0 : ℝ), (0 : ℝ)), ((3 : ℝ), (4 : ℝ))]
          ("COORD:N000.00.00.000:E000.00.00.000".toList)
          ("COORD:N001.00.00.000:E001.00.00.000".toList) =
        some (([((0 : ℝ), (0 : ℝ)), ((3 : ℝ), (4 : ℝ))] : List (ℝ × ℝ)).map
          fun p => (p.1 + dlat, p.2 + dlon)) ∧
      ∃ j, ∃ hj : j < ([((0 : ℝ), (0 : ℝ)), ((3 : ℝ), (4 : ℝ))] : List (ℝ × ℝ)).length,
        (∀ i (hi : i < ([((0 : ℝ), (0 : ℝ)), ((3 : ℝ), (4 : ℝ))] : List (ℝ × ℝ)).length),
          hypot ((([((0 : ℝ), (0 : ℝ)), ((3 : ℝ), (4 : ℝ))] : List (ℝ × ℝ)).get
                ⟨j, hj⟩).1 - ((0 : ℚ) : ℝ))
              ((([((0 : ℝ), (0 : ℝ)), ((3 : ℝ), (4 : ℝ))] : List (ℝ × ℝ)).get
                ⟨j, hj⟩).2 - ((0 : ℚ) : ℝ)) ≤
            hypot ((([((0 : ℝ), (0 : ℝ)), ((3 : ℝ), (4 : ℝ))] : List (ℝ × ℝ)).get
                ⟨i, hi⟩).1 - ((0 : ℚ) : ℝ))
              ((([((0 : ℝ), (0 : ℝ)), ((3 : ℝ), (4 : ℝ))] : List (ℝ × ℝ)).get
                ⟨i, hi⟩).2 - ((0 : ℚ) : ℝ))) ∧
        (∀ i (hi : i < j),
          hypot ((([((0 : ℝ), (0 : ℝ)), ((3 : ℝ), (4 : ℝ))] : List (ℝ × ℝ)).get
                ⟨j, hj⟩).1 - ((0 : ℚ) : ℝ))
              ((([((0 : ℝ), (0 : ℝ)), ((3 : ℝ), (4 : ℝ))] : List (ℝ × ℝ)).get
                ⟨j, hj⟩).2 - ((0 : ℚ) : ℝ)) <
            hypot ((([((0 : ℝ), (0 : ℝ)), ((3 : ℝ), (4 : ℝ))] : List (ℝ × ℝ)).get
                ⟨i, hi.trans hj⟩).1 - ((0 : ℚ) : ℝ))
              ((([((0 : ℝ), (0 : ℝ)), ((3 : ℝ), (4 : ℝ))] : List (ℝ × ℝ)).get
                ⟨i, hi.trans hj⟩).2 - ((0 : ℚ) : ℝ))) ∧
        |(([((0 : ℝ), (0 : ℝ)), ((3 : ℝ), (4 : ℝ))] : List (ℝ × ℝ)).get
            ⟨j, hj⟩).1 + dlat - ((1 : ℚ) : ℝ)| ≤ 1e-9 ∧
        |(([((0 : ℝ), (0 : ℝ)), ((3 : ℝ), (4 : ℝ))] : List (ℝ × ℝ)).get
            ⟨j, hj⟩).2 + dlon - ((1 : ℚ) : ℝ)| ≤ 1e-9) :=
  ⟨⟨dms_parse_zeros, dms_parse_ones, by simp⟩,
    c7_offset_anchor [((0 : ℝ), (0 : ℝ)), ((3 : ℝ), (4 : ℝ))] _ _ 0 0 1 1
      dms_parse_zeros dms_parse_ones (by simp)⟩

/-- C10: calling the offset step with an empty mirrored batch raises (the
minimum of an empty sequence), even when the reference and target strings
are well formed: it does not return an empty batch. -/
theorem c10_apply_offset_empty (ref tgt : List Char)
    (href : (dms_to_decimal ref).isSome = true)
    (htgt : (dms_to_decimal tgt).isSome = true) :
    apply_offset [] ref tgt = none := by
  obtain ⟨pr, hr⟩ := Option.isSome_iff_exists.mp href
  obtain ⟨pt, ht⟩ := Option.isSome_iff_exists.mp htgt
  cases pr with
  | mk a b =>
    cases pt with
    | mk c d => simp [apply_offset, hr, ht]

/-- C10 witness: the empty-batch theorem applied with the all-zero reference
and one-degree target strings. -/
theorem c10_apply_offset_empty_witness :
    ((dms_to_decimal ("COORD:N000.00.00.000:E000.00.00.000".toList)).isSome = true ∧
      (dms_to_decimal ("COORD:N001.00.00.000:E001.00.00.000".toList)).isSome = true) ∧
    apply_offset [] ("COORD:N000.00.00.000:E000.00.00.000".toList)
      ("COORD:N001.00.00.000:E001.00.00.000".toList) = none :=
  ⟨⟨by rw [dms_parse_zeros]; rfl, by rw [dms_parse_ones]; rfl⟩,
    c10_apply_offset_empty _ _ (by rw [dms_parse_zeros]; rfl)
      (by rw [dms_parse_ones]; rfl)⟩

end MirrorCoordinate
